import Mathlib

/-!
Shallow embedding of the mindfeed content pipeline.

The embedded pieces are, from src/services/contentService.ts: the id
hasher `generateId`, the syndicated-feed adapter `fetchRSSFeed` and the
aggregator `fetchAllContent`; from src/services/hnService.ts (the
`analyzeStories` enrichment engine): the per-story merge with its
truthiness-based defaults, the relevance sort and the whole-call
fallback; and from src/App.tsx: the source/tag filter pipeline
(`storiesFilteredBySource`, `finalFilteredStories`).

Conventions. JavaScript strings handled by the hasher are modeled as
their sequences of UTF-16 code units (`List Nat`), since the hash reads
`charCodeAt` values; elsewhere strings are plain `String`. External
behavior (network responses, the reasoning service, the random sort
comparator) enters as explicit parameters. JavaScript `Array.prototype.sort`
rearranges the array into some order consistent with the comparator when
the comparator is consistent, and into some permutation otherwise; both
are modeled by `List.insertionSort` over a given relation.
-/

/-- UTF-16 code units of a string: the sequence of `charCodeAt` values a
JavaScript program sees, with astral characters split into surrogate pairs. -/
def codeUnits (s : String) : List Nat :=
  (s.data.map (fun c =>
    if c.toNat < 65536 then [c.toNat]
    else [55296 + (c.toNat - 65536) / 1024, 56320 + (c.toNat - 65536) % 1024])).flatten

/-- JavaScript ToInt32: wrap an integer to the signed 32-bit range, as the
bitwise operators in `generateId` do (`hash << 5` and `hash = hash & hash`). -/
def wrap32 (x : Int) : Int :=
  let r := x % 4294967296
  if r < 2147483648 then r else r - 4294967296

/-- One loop iteration of `generateId`:
`hash = ((hash << 5) - hash) + char; hash = hash & hash;`.
`hash << 5` wraps `hash * 32` to Int32; the subtraction and addition are
exact in double precision at these magnitudes; `hash & hash` wraps again. -/
def hashStep (hash : Int) (char : Nat) : Int :=
  wrap32 (wrap32 (hash * 32) - hash + char)

/-- The rolling-hash loop of `generateId`, folded over the code units of
the input, starting from `let hash = 0`. -/
def hashLoop (str : List Nat) : Int :=
  str.foldl hashStep 0

/-- Code unit of one lowercase hexadecimal digit, as produced by
`Number.prototype.toString(16)` (0-9 then a-f). -/
def hexDigit (d : Nat) : Nat :=
  if d < 10 then 48 + d else 87 + d

/-- Accumulator recursion behind `toHex`. The fuel only bounds the digit
count (`n + 1` fuel always suffices since `n / 16 < n` for `16 ≤ n`). -/
def toHexAux : Nat → Nat → List Nat → List Nat
  | 0, _, acc => acc
  | fuel + 1, n, acc =>
    if n < 16 then hexDigit n :: acc
    else toHexAux fuel (n / 16) (hexDigit (n % 16) :: acc)

/-- Base-16 rendering of a natural number, code-unit level: the value of
`n.toString(16)` for a nonnegative integer `n`. -/
def toHex (n : Nat) : List Nat :=
  toHexAux (n + 1) n []

/-- `generateId` from src/services/contentService.ts, at code-unit level.
Empty input returns `prefix + '0'`; otherwise the prefix, a dash (code
unit 45), and the base-16 rendering of `Math.abs(hash)`. -/
def generateId (pre : List Nat) (str : List Nat) : List Nat :=
  if str.length = 0 then pre ++ [48]
  else pre ++ 45 :: toHex (Int.natAbs (hashLoop str))

/-- Modelled from the spec for the C10 comparison: the accumulation step as
the spec words it, `hash = hash*31 + charCode` wrapped to signed 32-bit. -/
def specHashStep (hash : Int) (char : Nat) : Int :=
  wrap32 (31 * hash + char)

/-- Modelled from the spec for the C10 comparison: the whole spec-worded
hash, folding `specHashStep` over the UTF-16 code units. -/
def specHash (str : List Nat) : Int :=
  str.foldl specHashStep 0

/-- A story id is a string or a number (`id: string | number` in types.ts;
RSS ids are strings, Hacker News ids numbers). -/
inductive StoryId where
  | str (s : String)
  | num (n : Int)
deriving DecidableEq

/-- JavaScript `String(id)` coercion, used for the loose id comparison in
the merge step of `analyzeStories`. -/
def idToString : StoryId → String
  | .str s => s
  | .num n => toString n

/-- `RawStory` from src/types.ts. -/
structure RawStory where
  id : StoryId
  title : String
  url : String
  source : String
  author : Option String
  publishDate : Option String
  score : Option Int
deriving DecidableEq

/-- `EnrichedStory` from src/types.ts: a `RawStory` plus enrichment fields. -/
structure EnrichedStory extends RawStory where
  aiSummary : String
  aiAbstract : String
  relevanceScore : Int
  recommendationReason : String
  tags : List String
deriving DecidableEq

/-- `complexityLevel` values of `UserPreferences` in src/types.ts. -/
inductive ComplexityLevel where
  | beginner
  | intermediate
  | expert
deriving DecidableEq

/-- `tone` values of `UserPreferences` in src/types.ts. -/
inductive Tone where
  | neutral
  | enthusiastic
  | critical
deriving DecidableEq

/-- `UserPreferences` from src/types.ts. -/
structure UserPreferences where
  topics : List String
  blockedKeywords : List String
  complexityLevel : ComplexityLevel
  tone : Tone
  additionalContext : String
deriving DecidableEq

/-- `DEFAULT_PREFERENCES` from src/types.ts. -/
def DEFAULT_PREFERENCES : UserPreferences :=
  { topics := ["机器人", "具身智能", "大模型", "AI Agents", "AI Coding", "系统架构", "C++", "重大新闻"]
    blockedKeywords := ["政治", "娱乐八卦", "低俗内容"]
    complexityLevel := ComplexityLevel.expert
    tone := Tone.neutral
    additionalContext := "我是一名软件工程师，专注于机器人、具身智能、大模型、AI Agents、AI Coding、系统架构设计和 C/C++。我也关注全球重大新闻事件。请优先推荐高质量、有深度、具有技术洞察力的内容。" }

/-- One element of the parsed reasoning-service response in
`analyzeStories`. The parsed JSON is untyped (`a: any`), so every
enrichment field is optional: `none` models a missing property, on which
`analysis?.field` evaluates to `undefined`. -/
structure Annot where
  id : StoryId
  aiSummary : Option String
  aiAbstract : Option String
  relevanceScore : Option Int
  recommendationReason : Option String
  tags : Option (List String)
deriving DecidableEq

/-- JavaScript `x || d` for an optional string: `undefined` and `""` are
falsy, every other string is truthy. -/
def orDefaultStr (o : Option String) (d : String) : String :=
  match o with
  | none => d
  | some s => if s = "" then d else s

/-- JavaScript `x || d` for an optional number: `undefined` and `0` are
falsy, every other integer is truthy. -/
def orDefaultInt (o : Option Int) (d : Int) : Int :=
  match o with
  | none => d
  | some n => if n = 0 then d else n

/-- JavaScript `x || d` for an optional array: every array object is
truthy, including the empty array. -/
def orDefaultTags (o : Option (List String)) (d : List String) : List String :=
  match o with
  | none => d
  | some t => t

/-- The merge step of `analyzeStories` (hnService.ts lines 115-126): find
the annotation whose string-coerced id equals the story's string-coerced
id, then fill each enrichment field by `||`-defaulting. -/
def mergeStory (analysisResults : List Annot) (story : RawStory) : EnrichedStory :=
  let analysis := analysisResults.find? (fun a => idToString a.id == idToString story.id)
  { toRawStory := story
    aiSummary := orDefaultStr (analysis.bind Annot.aiSummary) "暂无简述"
    aiAbstract := orDefaultStr (analysis.bind Annot.aiAbstract) "暂无详细摘要"
    relevanceScore := orDefaultInt (analysis.bind Annot.relevanceScore) 10
    recommendationReason := orDefaultStr (analysis.bind Annot.recommendationReason) "热门科技内容"
    tags := orDefaultTags (analysis.bind Annot.tags) [] }

/-- The catch-branch fallback of `analyzeStories` (hnService.ts lines
134-141): a uniform default annotation on top of the unchanged story. -/
def fallbackStory (s : RawStory) : EnrichedStory :=
  { toRawStory := s
    aiSummary := "AI 分析暂不可用"
    aiAbstract := "无法获取详细摘要。"
    relevanceScore := 0
    recommendationReason := "系统繁忙"
    tags := [] }

/-- The order produced by the sort comparator
`(a, b) => b.relevanceScore - a.relevanceScore`: descending relevance. -/
def byScoreDesc (a b : EnrichedStory) : Prop :=
  b.relevanceScore ≤ a.relevanceScore

instance : DecidableRel byScoreDesc :=
  fun a b => inferInstanceAs (Decidable (b.relevanceScore ≤ a.relevanceScore))

instance : IsTotal EnrichedStory byScoreDesc :=
  ⟨fun a b => Int.le_total b.relevanceScore a.relevanceScore⟩

instance : IsTrans EnrichedStory byScoreDesc :=
  ⟨fun _ _ _ hab hbc => le_trans hbc hab⟩

/-- Observable behavior of the reasoning-service call inside the try block
of `analyzeStories`: either some exception before the merge (network
failure, empty response text, or `JSON.parse` rejecting the output), or a
successfully parsed annotation array of any shape. -/
inductive ServiceResult where
  | failure
  | success (analysisResults : List Annot)
deriving DecidableEq

/-- `analyzeStories` from src/services/hnService.ts. The prompt built from
`preferences` only affects what the external service answers, which is
already abstracted by `outcome`. The sort on line 129 is
`Array.prototype.sort` with a consistent comparator, modeled as a stable
sort by `byScoreDesc`; the catch branch maps every story to the uniform
fallback, without sorting. -/
def analyzeStories (stories : List RawStory) (_preferences : UserPreferences)
    (outcome : ServiceResult) : List EnrichedStory :=
  if stories.length = 0 then []
  else
    match outcome with
    | .success analysisResults =>
      List.insertionSort byScoreDesc (stories.map (mergeStory analysisResults))
    | .failure => stories.map fallbackStory

/-- A feed registry entry (`FeedConfig` in contentService.ts). -/
structure FeedConfig where
  name : String
  url : String
  webUrl : String
deriving DecidableEq

/-- One entry of the feed bridge's items array. `link` and `title` are
modeled as plain strings with `""` standing for an absent or empty value
(both are falsy for the `item.link || item.title` fallback); the fields
only copied through are optional. -/
structure RSSItem where
  link : String
  title : String
  pubDate : Option String
  author : Option String
deriving DecidableEq

/-- Reads an ASCII code-unit list back as a `String`; the ids produced by
`generateId` are ASCII (prefix literal, dash, hex digits). -/
def stringOfUnits (l : List Nat) : String :=
  String.mk (l.map Char.ofNat)

/-- The per-item mapping inside `fetchRSSFeed` (contentService.ts lines
92-100): hash-generated id with prefix `rss`, fields copied through. -/
def mapRSSItem (config : FeedConfig) (item : RSSItem) : RawStory :=
  { id := StoryId.str (stringOfUnits (generateId (codeUnits "rss")
      (codeUnits (if item.link = "" then item.title else item.link))))
    title := item.title
    url := item.link
    source := config.name
    author := item.author
    publishDate := item.pubDate
    score := none }

/-- Observable outcome of the bridge fetch in `fetchRSSFeed`: a thrown
error (network or JSON parse), or a response whose `status` is a string
and whose `items` field is an array (`some`) or not an array (`none`). -/
inductive FetchOutcome where
  | thrown
  | response (status : String) (items : Option (List RSSItem))
deriving DecidableEq

/-- `fetchRSSFeed` from src/services/contentService.ts: on an `ok` status
with an array of items, map each item and `slice(0, 2)`; otherwise, and on
any thrown error, return the empty list. -/
def fetchRSSFeed (config : FeedConfig) (outcome : FetchOutcome) : List RawStory :=
  match outcome with
  | .thrown => []
  | .response status items =>
    match items with
    | some its => if status = "ok" then (its.map (mapRSSItem config)).take 2 else []
    | none => []

/-- `fetchAllContent` from src/services/contentService.ts. The adapter
outputs (already settled by `Promise.all`) are passed in; the blog lists
are flattened, concatenated with the Hacker News list, and shuffled by
`combined.sort(() => Math.random() - 0.5)` — a sort under an arbitrary,
possibly inconsistent comparator, modeled as `List.insertionSort` over a
caller-supplied relation `cmp`. -/
def fetchAllContent (cmp : RawStory → RawStory → Prop) [DecidableRel cmp]
    (hnStories : List RawStory) (blogStories : List (List RawStory)) : List RawStory :=
  let allBlogStories := blogStories.flatten
  let combined := allBlogStories ++ hnStories
  List.insertionSort cmp combined

/-- `storiesFilteredBySource` from src/App.tsx (lines 148-150): keep the
stories whose source is in the selected-sources list. -/
def storiesFilteredBySource (enrichedStories : List EnrichedStory)
    (selectedSources : List String) : List EnrichedStory :=
  enrichedStories.filter (fun story => selectedSources.contains story.source)

/-- `finalFilteredStories` from src/App.tsx (lines 162-167): from the
source-filtered subset, keep everything when no tag is selected, else the
stories having at least one selected tag. -/
def finalFilteredStories (enrichedStories : List EnrichedStory)
    (selectedSources : List String) (selectedTags : List String) : List EnrichedStory :=
  (storiesFilteredBySource enrichedStories selectedSources).filter (fun story =>
    if selectedTags.length = 0 then true
    else story.tags.any (fun tag => selectedTags.contains tag))

/-- The fully defaulted enrichment of a story: what the merge step
produces when no annotation field survives the truthiness checks. -/
def defaultFilled (story : RawStory) : EnrichedStory :=
  { toRawStory := story
    aiSummary := "暂无简述"
    aiAbstract := "暂无详细摘要"
    relevanceScore := 10
    recommendationReason := "热门科技内容"
    tags := [] }

/-- An annotation none of whose enrichment fields is truthy: each field is
absent, or carries the falsy value of its type (empty string, zero), or —
for the always-truthy array field — is the empty list, which coincides
with the default. -/
def blankAnnot (a : Annot) : Prop :=
  (a.aiSummary = none ∨ a.aiSummary = some "") ∧
  (a.aiAbstract = none ∨ a.aiAbstract = some "") ∧
  (a.relevanceScore = none ∨ a.relevanceScore = some 0) ∧
  (a.recommendationReason = none ∨ a.recommendationReason = some "") ∧
  (a.tags = none ∨ a.tags = some [])

instance (a : Annot) : Decidable (blankAnnot a) := by
  unfold blankAnnot
  infer_instance

theorem mergeStory_toRawStory (rs : List Annot) (s : RawStory) :
    (mergeStory rs s).toRawStory = s := rfl

theorem fallbackStory_toRawStory (s : RawStory) :
    (fallbackStory s).toRawStory = s := rfl

theorem pairwise_fallback (l : List RawStory) :
    (l.map fallbackStory).Pairwise byScoreDesc := by
  induction l with
  | nil => simp
  | cons a t ih =>
    simp only [List.map_cons, List.pairwise_cons]
    refine ⟨fun b hb => ?_, ih⟩
    obtain ⟨c, _, rfl⟩ := List.mem_map.mp hb
    simp [byScoreDesc, fallbackStory]

/-- C1: for every input batch, every preferences value and every service
behavior, `analyzeStories` returns exactly one `EnrichedStory` per input
`RawStory`: the output length equals the input length, and the underlying
raw stories of the output are a permutation of the input batch. -/
theorem analyzeStories_one_output_per_input (stories : List RawStory)
    (prefs : UserPreferences) (outcome : ServiceResult) :
    (analyzeStories stories prefs outcome).length = stories.length ∧
      ((analyzeStories stories prefs outcome).map EnrichedStory.toRawStory).Perm stories := by
  rcases Nat.eq_zero_or_pos stories.length with h | h
  · have hs : stories = [] := List.length_eq_zero.mp h
    subst hs
    refine ⟨?_, ?_⟩ <;> simp [analyzeStories]
  · have hne : ¬ stories.length = 0 := by omega
    cases outcome with
    | failure =>
      simp only [analyzeStories, if_neg hne]
      refine ⟨by simp, ?_⟩
      have hmap : (stories.map fallbackStory).map EnrichedStory.toRawStory = stories := by
        simp [List.map_map, Function.comp_def, fallbackStory_toRawStory]
      rw [hmap]
    | success rs =>
      simp only [analyzeStories, if_neg hne]
      have hperm := List.perm_insertionSort byScoreDesc (stories.map (mergeStory rs))
      refine ⟨by rw [hperm.length_eq, List.length_map], ?_⟩
      have h2 := hperm.map EnrichedStory.toRawStory
      have h3 : (stories.map (mergeStory rs)).map EnrichedStory.toRawStory = stories := by
        simp [List.map_map, Function.comp_def, mergeStory_toRawStory]
      rwa [h3] at h2

/-- C2: the list returned by `analyzeStories` is sorted by relevance score
in non-increasing order, for every run. -/
theorem analyzeStories_sorted_desc (stories : List RawStory)
    (prefs : UserPreferences) (outcome : ServiceResult) :
    (analyzeStories stories prefs outcome).Pairwise
      (fun a b => b.relevanceScore ≤ a.relevanceScore) := by
  rcases Nat.eq_zero_or_pos stories.length with h | h
  · have hs : stories = [] := List.length_eq_zero.mp h
    subst hs
    simp [analyzeStories]
  · have hne : ¬ stories.length = 0 := by omega
    cases outcome with
    | failure =>
      simp only [analyzeStories, if_neg hne]
      exact pairwise_fallback stories
    | success rs =>
      simp only [analyzeStories, if_neg hne]
      exact List.sorted_insertionSort byScoreDesc (stories.map (mergeStory rs))

/-- Concrete story fixture (a ranked-API style story with id `a`). -/
def storyA : RawStory :=
  { id := StoryId.str "a"
    title := "Story A"
    url := "https://a.example/post"
    source := "Hacker News"
    author := some "alice"
    publishDate := some "2025-01-01T00:00:00.000Z"
    score := some 120 }

/-- Concrete story fixture (a feed story with id `b`). -/
def storyB : RawStory :=
  { id := StoryId.str "b"
    title := "Story B"
    url := "https://b.example/post"
    source := "Qwen Blog"
    author := none
    publishDate := some "2025-01-02T00:00:00.000Z"
    score := none }

/-- Concrete complete annotation for story `a`. -/
def annA : Annot :=
  { id := StoryId.str "a"
    aiSummary := some "甲的简述"
    aiAbstract := some "甲的详细摘要"
    relevanceScore := some 80
    recommendationReason := some "与用户画像相关"
    tags := some ["x", "y"] }

/-- Concrete annotation for story `b` whose fields are all present but
falsy: score 0 and empty strings. -/
def annB0 : Annot :=
  { id := StoryId.str "b"
    aiSummary := some ""
    aiAbstract := some ""
    relevanceScore := some 0
    recommendationReason := some ""
    tags := some ["t"] }

/-- C3 counterexample: the service annotates only `a` out of `[a, b]`; the
story `b` stays in the output, but its recommendation reason is the
non-empty default 热门科技内容, not the empty string the claim asserts. -/
theorem analyzeStories_default_reason_not_empty :
    (analyzeStories [storyA, storyB] DEFAULT_PREFERENCES
        (ServiceResult.success [annA])).map EnrichedStory.recommendationReason =
      ["与用户画像相关", "热门科技内容"] ∧
    ("热门科技内容" : String) ≠ "" := by
  refine ⟨by decide, by decide⟩

/-- C3 (amended): a story whose annotation is missing from the parsed
response — or present with no truthy enrichment field — stays in the
output and receives the defined default filler: 暂无简述 summary,
暂无详细摘要 abstract, relevance score 10, the non-empty default reason
热门科技内容, and an empty tag list. -/
theorem analyzeStories_missing_annotation_default_filler
    (stories : List RawStory) (prefs : UserPreferences) (rs : List Annot)
    (story : RawStory) (hmem : story ∈ stories)
    (hblank : ∀ a ∈ rs, idToString a.id = idToString story.id → blankAnnot a) :
    defaultFilled story ∈ analyzeStories stories prefs (ServiceResult.success rs) := by
  have hmerge : mergeStory rs story = defaultFilled story := by
    cases hf : rs.find? (fun a => idToString a.id == idToString story.id) with
    | none =>
      simp [mergeStory, hf, defaultFilled, orDefaultStr, orDefaultInt, orDefaultTags]
    | some a =>
      have hpred := List.find?_some hf
      have heq : idToString a.id = idToString story.id := by simpa using hpred
      obtain ⟨h1, h2, h3, h4, h5⟩ := hblank a (List.mem_of_find?_eq_some hf) heq
      rcases h1 with h1 | h1 <;> rcases h2 with h2 | h2 <;> rcases h3 with h3 | h3 <;>
        rcases h4 with h4 | h4 <;> rcases h5 with h5 | h5 <;>
        simp [mergeStory, hf, h1, h2, h3, h4, h5, defaultFilled,
          orDefaultStr, orDefaultInt, orDefaultTags]
  have hlen : ¬ stories.length = 0 := by
    intro h0
    rw [List.length_eq_zero.mp h0] at hmem
    simp at hmem
  simp only [analyzeStories, if_neg hlen, List.mem_insertionSort]
  rw [← hmerge]
  exact List.mem_map_of_mem (mergeStory rs) hmem

theorem analyzeStories_missing_annotation_default_filler_witness :
    defaultFilled storyB ∈
      analyzeStories [storyA, storyB] DEFAULT_PREFERENCES (ServiceResult.success [annA]) :=
  analyzeStories_missing_annotation_default_filler [storyA, storyB] DEFAULT_PREFERENCES
    [annA] storyB (by decide) (by decide)

/-- C4: when the reasoning-service call throws or its output cannot be
parsed, `analyzeStories` keeps the batch at full size, every output story
carries the uniform fallback annotation (relevance 0, the distinct
分析暂不可用 marker text, no tags), and every input story appears. -/
theorem analyzeStories_failure_uniform_fallback (stories : List RawStory)
    (prefs : UserPreferences) :
    (analyzeStories stories prefs ServiceResult.failure).length = stories.length ∧
    (∀ e ∈ analyzeStories stories prefs ServiceResult.failure,
      e.relevanceScore = 0 ∧ e.aiSummary = "AI 分析暂不可用" ∧
      e.aiAbstract = "无法获取详细摘要。" ∧ e.recommendationReason = "系统繁忙" ∧
      e.tags = [] ∧ e.toRawStory ∈ stories) ∧
    (∀ s ∈ stories, fallbackStory s ∈ analyzeStories stories prefs ServiceResult.failure) := by
  rcases Nat.eq_zero_or_pos stories.length with h | h
  · rw [List.length_eq_zero.mp h]
    refine ⟨by simp [analyzeStories], ?_, ?_⟩ <;> simp [analyzeStories]
  · have hne : ¬ stories.length = 0 := by omega
    simp only [analyzeStories, if_neg hne]
    refine ⟨by simp, fun e he => ?_, fun s hs => List.mem_map_of_mem fallbackStory hs⟩
    obtain ⟨c, hc, rfl⟩ := List.mem_map.mp he
    exact ⟨rfl, rfl, rfl, rfl, rfl, hc⟩

theorem analyzeStories_failure_uniform_fallback_witness :
    (analyzeStories [storyA] DEFAULT_PREFERENCES ServiceResult.failure).length = 1 ∧
    (fallbackStory storyA).relevanceScore = 0 ∧
    fallbackStory storyA ∈ analyzeStories [storyA] DEFAULT_PREFERENCES ServiceResult.failure := by
  obtain ⟨h1, h2, h3⟩ := analyzeStories_failure_uniform_fallback [storyA] DEFAULT_PREFERENCES
  have hm := h3 storyA (by decide)
  exact ⟨by rw [h1]; rfl, (h2 _ hm).1, hm⟩

/-- C5: defaults are applied per field by JavaScript truthiness, so an
annotation found for the story but carrying relevance score `0` or an
empty-string summary, abstract or reason is treated exactly like a missing
one: the merge substitutes the default 10 or the filler text. -/
theorem mergeStory_truthiness_defaults
    (rs : List Annot) (story : RawStory) (a : Annot)
    (hfind : rs.find? (fun x => idToString x.id == idToString story.id) = some a) :
    (a.relevanceScore = some 0 → (mergeStory rs story).relevanceScore = 10) ∧
    (a.aiSummary = some "" → (mergeStory rs story).aiSummary = "暂无简述") ∧
    (a.aiAbstract = some "" → (mergeStory rs story).aiAbstract = "暂无详细摘要") ∧
    (a.recommendationReason = some "" →
      (mergeStory rs story).recommendationReason = "热门科技内容") := by
  refine ⟨fun h => ?_, fun h => ?_, fun h => ?_, fun h => ?_⟩ <;>
    simp [mergeStory, hfind, h, orDefaultInt, orDefaultStr]

theorem mergeStory_truthiness_defaults_witness :
    (mergeStory [annB0] storyB).relevanceScore = 10 ∧
    (mergeStory [annB0] storyB).aiSummary = "暂无简述" ∧
    (mergeStory [annB0] storyB).recommendationReason = "热门科技内容" := by
  obtain ⟨h1, h2, h3, h4⟩ := mergeStory_truthiness_defaults [annB0] storyB annB0 (by decide)
  exact ⟨h1 rfl, h2 rfl, h4 rfl⟩

/-- C6: the visible story set is exactly the source-selected stories,
further narrowed — only when some tag is selected — to those having at
least one selected tag (OR semantics); an empty tag selection applies no
tag filter. -/
theorem finalFilteredStories_mem_iff (enriched : List EnrichedStory)
    (selectedSources selectedTags : List String) (s : EnrichedStory) :
    s ∈ finalFilteredStories enriched selectedSources selectedTags ↔
      s ∈ enriched ∧ s.source ∈ selectedSources ∧
        (selectedTags = [] ∨ ∃ t ∈ s.tags, t ∈ selectedTags) := by
  by_cases hst : selectedTags.length = 0
  · rw [List.length_eq_zero.mp hst]
    simp [finalFilteredStories, storiesFilteredBySource, List.mem_filter]
  · have hne : selectedTags ≠ [] := fun h => hst (by rw [h]; rfl)
    simp [finalFilteredStories, storiesFilteredBySource, List.mem_filter, hst, hne,
      List.any_eq_true]
    tauto

/-- C7: the aggregator output is a permutation of the concatenation of the
individual adapter outputs, whatever the shuffle comparator does: nothing
is dropped or duplicated, and its length is the sum of the per-adapter
lengths. -/
theorem fetchAllContent_perm_of_adapters (cmp : RawStory → RawStory → Prop)
    [DecidableRel cmp] (hnStories : List RawStory) (blogStories : List (List RawStory)) :
    (fetchAllContent cmp hnStories blogStories).Perm (blogStories.flatten ++ hnStories) ∧
    (fetchAllContent cmp hnStories blogStories).length =
      (blogStories.map List.length).sum + hnStories.length := by
  have hp : (fetchAllContent cmp hnStories blogStories).Perm
      (blogStories.flatten ++ hnStories) := by
    simp only [fetchAllContent]
    exact List.perm_insertionSort cmp _
  refine ⟨hp, ?_⟩
  rw [hp.length_eq, List.length_append, List.length_flatten]

/-- C8: the syndicated-feed adapter yields at most 2 stories, and yields
the empty list on a thrown fetch or parse, on a non-`ok` status, and on a
non-array items field. -/
theorem fetchRSSFeed_cap_and_empty_on_failure (config : FeedConfig)
    (outcome : FetchOutcome) :
    (fetchRSSFeed config outcome).length ≤ 2 ∧
    fetchRSSFeed config FetchOutcome.thrown = [] ∧
    (∀ status items, outcome = FetchOutcome.response status items →
      (status ≠ "ok" ∨ items = none) → fetchRSSFeed config outcome = []) := by
  refine ⟨?_, rfl, ?_⟩
  · cases outcome with
    | thrown => simp [fetchRSSFeed]
    | response status items =>
      cases items with
      | none => simp [fetchRSSFeed]
      | some its =>
        by_cases h : status = "ok" <;>
          simp [fetchRSSFeed, h, List.length_take]
  · intro status items heq hbad
    subst heq
    cases items with
    | none => simp [fetchRSSFeed]
    | some its =>
      rcases hbad with hb | hb
      · simp [fetchRSSFeed, hb]
      · simp at hb

/-- Concrete feed fixture. -/
def feedA : FeedConfig :=
  { name := "Qwen Blog"
    url := "https://qwenlm.github.io/feed.xml"
    webUrl := "https://qwenlm.github.io/" }

/-- Concrete bridge item fixtures. -/
def itemA : RSSItem :=
  { link := "https://x.example/1"
    title := "第一篇"
    pubDate := some "2025-01-01"
    author := some "甲" }

def itemB : RSSItem :=
  { link := "https://x.example/2"
    title := "第二篇"
    pubDate := some "2025-01-02"
    author := none }

def itemC : RSSItem :=
  { link := ""
    title := "第三篇"
    pubDate := none
    author := none }

theorem fetchRSSFeed_cap_and_empty_on_failure_witness :
    (fetchRSSFeed feedA (FetchOutcome.response "ok" (some [itemA, itemB, itemC]))).length ≤ 2 ∧
    fetchRSSFeed feedA (FetchOutcome.response "error" (some [itemA])) = [] ∧
    fetchRSSFeed feedA (FetchOutcome.response "ok" none) = [] := by
  refine ⟨(fetchRSSFeed_cap_and_empty_on_failure feedA _).1, ?_, ?_⟩
  · exact (fetchRSSFeed_cap_and_empty_on_failure feedA _).2.2 "error" (some [itemA]) rfl
      (Or.inl (by decide))
  · exact (fetchRSSFeed_cap_and_empty_on_failure feedA _).2.2 "ok" none rfl (Or.inr rfl)

theorem hexDigit_ne_dash (d : Nat) : hexDigit d ≠ 45 := by
  unfold hexDigit
  split <;> omega

theorem toHexAux_no_dash (fuel : Nat) : ∀ (n : Nat) (acc : List Nat),
    45 ∉ acc → 45 ∉ toHexAux fuel n acc := by
  induction fuel with
  | zero =>
    intro n acc h
    simpa [toHexAux] using h
  | succ f ih =>
    intro n acc h
    unfold toHexAux
    split
    · intro hmem
      rcases List.mem_cons.mp hmem with h1 | h1
      · exact hexDigit_ne_dash n h1.symm
      · exact h h1
    · refine ih (n / 16) (hexDigit (n % 16) :: acc) ?_
      intro hmem
      rcases List.mem_cons.mp hmem with h1 | h1
      · exact hexDigit_ne_dash (n % 16) h1.symm
      · exact h h1

theorem toHex_no_dash (n : Nat) : 45 ∉ toHex n :=
  toHexAux_no_dash (n + 1) n [] (by simp)

theorem takeWhile_no_dash (p : List Nat) (h : 45 ∉ p) (rest : List Nat) :
    (p ++ 45 :: rest).takeWhile (fun a => a != 45) = p := by
  induction p with
  | nil => simp
  | cons a t ih =>
    have ha : a ≠ 45 := fun h1 => h (by simp [h1])
    have ht := ih (fun hm => h (List.mem_cons_of_mem a hm))
    simp only [List.cons_append, List.takeWhile_cons]
    simp [bne_iff_ne, ha, ht]

/-- C9 counterexample: the cross-prefix non-collision fails for arbitrary
prefixes. With the distinct prefixes `a` (code units `[97]`) and `a-1`
(`[97, 45, 49]`), the input `"\u0010"` (`[16]`, hash 16 = 0x10) under the
first and the empty input under the second both produce the id `a-10`. -/
theorem generateId_cross_prefix_collision :
    ([97] : List Nat) ≠ [97, 45, 49] ∧
    generateId [97] [16] = generateId [97, 45, 49] [] ∧
    generateId [97] [16] = [97, 45, 49, 48] := by
  refine ⟨by decide, by decide, by decide⟩

/-- C9 (amended): `generateId` is deterministic — equal prefix and equal
input give equal output — and outputs across different prefixes never
collide provided neither prefix contains the dash separator (code unit
45), which holds for every prefix the code passes; with a dash inside a
prefix, cross-prefix collisions exist. -/
theorem generateId_deterministic_and_prefix_disjoint (p1 p2 s1 s2 : List Nat) :
    generateId p1 s1 = generateId p1 s1 ∧
    (45 ∉ p1 → 45 ∉ p2 → p1 ≠ p2 → generateId p1 s1 ≠ generateId p2 s2) := by
  refine ⟨rfl, fun h1 h2 hne heq => ?_⟩
  unfold generateId at heq
  by_cases e1 : s1.length = 0 <;> by_cases e2 : s2.length = 0
  · rw [if_pos e1, if_pos e2] at heq
    exact hne (List.append_cancel_right heq)
  · rw [if_pos e1, if_neg e2] at heq
    have hmem : (45 : Nat) ∈ p1 ++ [48] := by
      rw [heq]
      simp
    rcases List.mem_append.mp hmem with hm | hm
    · exact h1 hm
    · simp at hm
  · rw [if_neg e1, if_pos e2] at heq
    have hmem : (45 : Nat) ∈ p2 ++ [48] := by
      rw [← heq]
      simp
    rcases List.mem_append.mp hmem with hm | hm
    · exact h2 hm
    · simp at hm
  · rw [if_neg e1, if_neg e2] at heq
    have h1t := takeWhile_no_dash p1 h1 (toHex (Int.natAbs (hashLoop s1)))
    have h2t := takeWhile_no_dash p2 h2 (toHex (Int.natAbs (hashLoop s2)))
    exact hne (by rw [← h1t, ← h2t, heq])

theorem generateId_prefix_disjoint_witness :
    generateId (codeUnits "rss") (codeUnits "x") ≠
      generateId (codeUnits "hn") (codeUnits "x") :=
  (generateId_deterministic_and_prefix_disjoint (codeUnits "rss") (codeUnits "hn")
    (codeUnits "x") (codeUnits "x")).2 (by decide) (by decide) (by decide)

theorem wrap32_emod (x : Int) : wrap32 x % 4294967296 = x % 4294967296 := by
  simp only [wrap32]
  split <;> omega

theorem wrap32_congr (x y : Int) (h : x % 4294967296 = y % 4294967296) :
    wrap32 x = wrap32 y := by
  simp only [wrap32]
  rw [h]

theorem hashStep_eq_specHashStep : hashStep = specHashStep := by
  funext h c
  unfold hashStep specHashStep
  apply wrap32_congr
  have hw := wrap32_emod (h * 32)
  omega

theorem hashLoop_eq_specHash (str : List Nat) : hashLoop str = specHash str := by
  unfold hashLoop specHash
  rw [hashStep_eq_specHashStep]

/-- C10: on every non-empty input, `generateId` returns the prefix joined
by a dash to the base-16 rendering of the absolute value of the spec
hash — fold of `hash = hash*31 + charCode` wrapped to signed 32 bits over
the UTF-16 code units — because the code's `((hash << 5) - hash) + char`
followed by `hash & hash` computes exactly that wrapped value. -/
theorem generateId_matches_spec_hash (pre str : List Nat) (hne : str.length ≠ 0) :
    generateId pre str = pre ++ 45 :: toHex (Int.natAbs (specHash str)) ∧
    hashLoop str = specHash str := by
  refine ⟨?_, hashLoop_eq_specHash str⟩
  unfold generateId
  rw [if_neg hne, hashLoop_eq_specHash]

theorem generateId_matches_spec_hash_witness :
    generateId (codeUnits "rss") (codeUnits "ab") =
      codeUnits "rss" ++ 45 :: toHex (Int.natAbs (specHash (codeUnits "ab"))) ∧
    generateId (codeUnits "rss") (codeUnits "ab") = codeUnits "rss-c21" := by
  refine ⟨(generateId_matches_spec_hash (codeUnits "rss") (codeUnits "ab") (by decide)).1,
    by decide⟩
